import Mathlib

/-!
# Verification of the js-metrics-plus sampling core

Shallow embedding of the statistical sampling engine of `js-metrics-plus`
(`src/sample.ts`, `src/ewma.ts`, `src/meter.ts`, `src/histogram.ts`).

Modelling conventions:
* Stored sample values are integers (`ℤ`); JavaScript numbers used for
  interpolation, times and probabilities are rationals (`ℚ`); quantities
  produced by `Math.exp` are reals (`ℝ`).
* A JavaScript computation that produces `NaN`/`undefined`/`Infinity`
  (out-of-range or fractional array index, division by zero) is modelled by
  `Option`: `none` stands for the non-finite result, and arithmetic on
  `none` propagates it, as NaN does.
* Wall-clock time is passed explicitly (in milliseconds, as in `Date.getTime`),
  and each call that reads `Math.random()` takes the drawn number `q ∈ [0,1)`
  as an explicit argument.
-/

/-- JavaScript string of an integer-valued number (sign, then decimal digits),
as produced by `String(n)` for an integer `n`. -/
def jsStr (n : ℤ) : List Char :=
  if n < 0 then '-' :: Nat.toDigits 10 (-n).toNat else Nat.toDigits 10 n.toNat

/-- Lexicographic comparison of UTF-16 code-unit sequences; this is the order
used by the default comparator of `Array.prototype.sort`. -/
def charListLe : List Char → List Char → Bool
  | [], _ => true
  | _ :: _, [] => false
  | a :: as, b :: bs =>
    if a < b then true else if b < a then false else charListLe as bs

/-- Default-comparator order of `Array.prototype.sort` on numbers: elements are
compared by their string representations, not numerically. -/
def jsSortLe (a b : ℤ) : Bool := charListLe (jsStr a) (jsStr b)

/-- Stable insertion into a sorted list (earlier-arrived elements stay first
among equals, as ECMAScript requires sorts to be stable). -/
def jsInsert (x : ℤ) : List ℤ → List ℤ
  | [] => [x]
  | y :: ys => if jsSortLe x y then x :: y :: ys else y :: jsInsert x ys

/-- `vals.sort()` with the default comparator: a stable sort by the
string-comparison order `jsSortLe`.  (The output of a stable sort is uniquely
determined by the comparator, so any stable algorithm models V8's.) -/
def jsSort (vals : List ℤ) : List ℤ := vals.foldr jsInsert []

/-- JavaScript array read `vals[q]` for a number index `q`: an element when `q`
is an integer in range, otherwise `undefined` (modelled `none`). -/
def jsGet (vals : List ℤ) (q : ℚ) : Option ℚ :=
  if h : q.den = 1 ∧ 0 ≤ q.num ∧ q.num.toNat < vals.length then
    some ((vals.get ⟨q.num.toNat, h.2.2⟩ : ℤ) : ℚ)
  else none

/-- NaN-propagating addition. -/
def jsAdd : Option ℚ → Option ℚ → Option ℚ
  | some a, some b => some (a + b)
  | _, _ => none

/-- NaN-propagating subtraction. -/
def jsSub : Option ℚ → Option ℚ → Option ℚ
  | some a, some b => some (a - b)
  | _, _ => none

/-- NaN-propagating multiplication. -/
def jsMul : Option ℚ → Option ℚ → Option ℚ
  | some a, some b => some (a * b)
  | _, _ => none

/-- `Number.MAX_SAFE_INTEGER`. -/
def maxSafeInteger : ℤ := 2 ^ 53 - 1

/-- `Number.MIN_SAFE_INTEGER`. -/
def minSafeInteger : ℤ := -(2 ^ 53 - 1)

/-- `sampleMax` (sample.ts): 0 on the empty array, otherwise a fold starting
from `Number.MIN_SAFE_INTEGER` taking the larger element each step. -/
def sampleMax (vals : List ℤ) : ℤ :=
  if vals.length = 0 then 0
  else vals.foldl (fun m v => if m < v then v else m) minSafeInteger

/-- `sampleMin` (sample.ts): 0 on the empty array, otherwise a fold starting
from `Number.MAX_SAFE_INTEGER` taking the smaller element each step. -/
def sampleMin (vals : List ℤ) : ℤ :=
  if vals.length = 0 then 0
  else vals.foldl (fun m v => if v < m then v else m) maxSafeInteger

/-- `sampleSum` (sample.ts): running sum of the array. -/
def sampleSum (vals : List ℤ) : ℤ := vals.foldl (fun s v => s + v) 0

/-- `sampleMean` (sample.ts): 0 on the empty array, else `sum / length`. -/
def sampleMean (vals : List ℤ) : ℚ :=
  if vals.length = 0 then 0 else (sampleSum vals : ℚ) / vals.length

/-- `sampleVariance` (sample.ts): 0 on the empty array, else the population
variance `Σ (v - mean)² / length`. -/
def sampleVariance (vals : List ℤ) : ℚ :=
  if vals.length = 0 then 0
  else
    let m := sampleMean vals
    (vals.foldl (fun s v => s + ((v : ℚ) - m) * ((v : ℚ) - m)) 0) / vals.length

/-- `sampleStdDev` (sample.ts): `Math.sqrt(sampleVariance(vals))`. -/
noncomputable def sampleStdDev (vals : List ℤ) : ℝ :=
  Real.sqrt (sampleVariance vals)

/-- `samplePercentiles` (sample.ts).  On an empty array every score is 0.
Otherwise the array is sorted with the default comparator (`vals.sort()`),
and for each requested `p`: `pos = p * (len + 1)`; if `pos < 1` the score is
`vals[0]`; if `pos ≥ len` it is `vals[len-1]`; otherwise it is
`vals[pos-1] + (pos - Math.floor(pos)) * (vals[pos] - vals[pos-1])` — note the
source indexes with the *unfloored* `pos`, so a fractional `pos` reads
`undefined` and the score is NaN (`none`). -/
def samplePercentiles (vals : List ℤ) (ps : List ℚ) : List (Option ℚ) :=
  if vals.length = 0 then ps.map (fun _ => some 0)
  else
    let len : ℕ := vals.length
    let sorted := jsSort vals
    ps.map (fun p =>
      let pos : ℚ := p * ((len : ℚ) + 1)
      if pos < 1 then jsGet sorted 0
      else if (len : ℚ) ≤ pos then jsGet sorted ((len : ℚ) - 1)
      else
        let lower := jsGet sorted (pos - 1)
        let upper := jsGet sorted pos
        jsAdd lower (jsMul (some (pos - (⌊pos⌋ : ℚ))) (jsSub upper lower)))

/-- `samplePercentile` (sample.ts): `samplePercentiles(vals, [p])[0]`. -/
def samplePercentile (vals : List ℤ) (p : ℚ) : Option ℚ :=
  (samplePercentiles vals [p]).headD none

/-!
## UniformSample (sample.ts)

A reservoir sample per Vitter's Algorithm R.  `Math.random()` draws are passed
explicitly as `q`; the source computes `r = Math.floor(Math.random() * this._count)`
after the count increment.
-/

structure UniformSample where
  reservoirSize : ℕ
  _count : ℕ
  _values : List ℤ
  deriving Repr, DecidableEq

/-- The `UniformSample` constructor: empty value array, zero count. -/
def UniformSample.new (reservoirSize : ℕ) : UniformSample :=
  { reservoirSize := reservoirSize, _count := 0, _values := [] }

/-- `UniformSample.clear`. -/
def UniformSample.clear (s : UniformSample) : UniformSample :=
  { s with _count := 0, _values := [] }

/-- `UniformSample.size`: the length of the retained value array. -/
def UniformSample.size (s : UniformSample) : ℕ := s._values.length

/-- `UniformSample.count`: total observations ever seen. -/
def UniformSample.count (s : UniformSample) : ℕ := s._count

/-- `UniformSample.values`: `Object.assign([], this._values)` copies the
retained values into a fresh array; as a sequence it equals `_values`.
(The freshness of the copy is modelled separately, in the array-store model
at the end of this file.) -/
def UniformSample.values (s : UniformSample) : List ℤ := s._values

/-- JavaScript array element assignment `l[r] = x` for an integer index `r`
that the caller has checked to be `< l.length`: for `0 ≤ r` it overwrites the
slot; a negative `r` writes a non-index property, leaving the array's elements
and length unchanged. -/
def jsArraySet (l : List ℤ) (r : ℤ) (x : ℤ) : List ℤ :=
  if 0 ≤ r then l.set r.toNat x else l

/-- `UniformSample.update`: increment the count; append while under the
reservoir size; otherwise draw `r = Math.floor(q * count)` and overwrite
slot `r` when `r < length`. -/
def UniformSample.update (s : UniformSample) (i : ℤ) (q : ℚ) : UniformSample :=
  let c := s._count + 1
  if s._values.length < s.reservoirSize then
    { s with _count := c, _values := s._values ++ [i] }
  else
    let r : ℤ := ⌊q * (c : ℚ)⌋
    if r < (s._values.length : ℤ) then
      { s with _count := c, _values := jsArraySet s._values r i }
    else
      { s with _count := c }

/-- A sequence of `update` calls, each with its value and its random draw. -/
def UniformSample.runUpdates (s : UniformSample) (ins : List (ℤ × ℚ)) :
    UniformSample :=
  ins.foldl (fun t p => t.update p.1 p.2) s

/-!
## ExpDecaySample (sample.ts)

`class ExpDecaySample extends UniformSample`.  It keeps the inherited `_count`
and `_values` fields and adds a private keyed entry list `#values`, the decay
constant `#alpha` and the time origins `#t0`, `#t1`.  Only `clear` and `update`
are overridden; `size` and every statistics query are inherited from
`UniformSample` and therefore read the inherited `_values` array.

Priority keys are reals; a key of `none` models the non-finite number
(`Infinity`) that JavaScript produces when the random divisor `f` is zero.

Constructor aliasing: `this.#t1 = this.#t0` makes both fields reference the
same `Date` object, so the subsequent `setTime` advances *both* by the rescale
threshold; the constructor therefore leaves `t0 = t1 = creation time + 3600000`.
-/

structure ExpDecaySample where
  reservoirSize : ℕ
  alpha : ℝ
  _count : ℕ
  _values : List ℤ
  keyed : List (Option ℝ × ℤ)
  t0 : ℚ
  t1 : ℚ

/-- `ExpDecaySample.rescaleThreshold`: one hour in milliseconds. -/
def ExpDecaySample.rescaleThreshold : ℚ := 3600000

/-- The `ExpDecaySample` constructor at creation time `ct` (ms).  Because of
the `#t1 = #t0` object aliasing noted above, both time fields end up at
`ct + rescaleThreshold`. -/
def ExpDecaySample.new (alpha : ℝ) (reservoirSize : ℕ) (ct : ℚ) :
    ExpDecaySample :=
  { reservoirSize := reservoirSize, alpha := alpha, _count := 0, _values := []
    keyed := [], t0 := ct + ExpDecaySample.rescaleThreshold
    t1 := ct + ExpDecaySample.rescaleThreshold }

/-- `ExpDecaySample.size` is inherited from `UniformSample`: the length of the
inherited `_values` array (not of the keyed entry list). -/
def ExpDecaySample.size (s : ExpDecaySample) : ℕ := s._values.length

/-- `ExpDecaySample.count` (inherited): the `_count` field. -/
def ExpDecaySample.count (s : ExpDecaySample) : ℕ := s._count

/-- `ExpDecaySample.max` (inherited): `sampleMax` over the inherited
`_values` array. -/
def ExpDecaySample.max (s : ExpDecaySample) : ℤ := sampleMax s._values

/-- `ExpDecaySample.min` (inherited): `sampleMin` over the inherited
`_values` array. -/
def ExpDecaySample.min (s : ExpDecaySample) : ℤ := sampleMin s._values

/-- `Array.prototype.pop`: drops the last element (no-op on an empty array). -/
def jsPop (l : List ℤ) : List ℤ := l.dropLast

/-- The random divisor `f = Math.floor(q * count)` drawn by
`ExpDecaySample.update` (with `count` already incremented). -/
def ExpDecaySample.divisor (count : ℕ) (q : ℚ) : ℤ := ⌊q * (count : ℚ)⌋

/-- The priority key `Math.exp(elapsed * alpha) / f`: a finite real for
`f ≠ 0`, and the non-finite `Infinity` (modelled `none`) for `f = 0`. -/
noncomputable def ExpDecaySample.priorityKey (alpha : ℝ) (elapsed : ℚ) (f : ℤ) : Option ℝ :=
  if f = 0 then none else some (Real.exp ((elapsed : ℝ) * alpha) / (f : ℤ))

/-- Rescaling multiplies a key by `Math.exp(-alpha * dt)`; a non-finite key
stays non-finite, the factor being positive. -/
def ExpDecaySample.scaleKey (k : Option ℝ) (factor : ℝ) : Option ℝ :=
  k.map (fun x => x * factor)

/-- `ExpDecaySample.update` at wall-clock time `t` with random draw `q`:
increment the inherited count; if the inherited `size()` (always the length of
the untouched `_values` array) equals the reservoir size, `pop` the inherited
`_values` array; push `(exp(elapsed * alpha) / f, i)` onto the keyed list; and
if `t > t1`, rescale every key by `exp(-alpha * (t - t0)/1000)` and reset
`t0 = t`, `t1 = t + rescaleThreshold`. -/
noncomputable def ExpDecaySample.update (s : ExpDecaySample) (i : ℤ) (q : ℚ) (t : ℚ) :
    ExpDecaySample :=
  let c := s._count + 1
  let values' := if s._values.length = s.reservoirSize then jsPop s._values
                 else s._values
  let f := ExpDecaySample.divisor c q
  let elapsed : ℚ := (t - s.t0) / 1000
  let keyed' := s.keyed ++ [(ExpDecaySample.priorityKey s.alpha elapsed f, i)]
  if s.t1 < t then
    { s with
      _count := c
      _values := values'
      keyed := keyed'.map (fun e =>
        (ExpDecaySample.scaleKey e.1 (Real.exp (-s.alpha * ((t - s.t0) / 1000 : ℚ))), e.2))
      t0 := t
      t1 := t + ExpDecaySample.rescaleThreshold }
  else
    { s with _count := c, _values := values', keyed := keyed' }

/-- `ExpDecaySample.clear` at time `now`: clear the inherited count and value
array, reset `t0` to `now`; `#t1.setTime(#t1.getTime() + rescaleThreshold)`
pushes the existing `t1` another hour out.  (The overriding method never
empties the keyed `#values` list.) -/
def ExpDecaySample.clear (s : ExpDecaySample) (now : ℚ) : ExpDecaySample :=
  { s with
    _count := 0
    _values := []
    t0 := now
    t1 := s.t1 + ExpDecaySample.rescaleThreshold }

/-- A sequence of `ExpDecaySample.update` calls with explicit draws and times. -/
noncomputable def ExpDecaySample.runUpdates (s : ExpDecaySample) (ins : List (ℤ × ℚ × ℚ)) :
    ExpDecaySample :=
  ins.foldl (fun t p => t.update p.1 p.2.1 p.2.2) s

/-!
## StandardEWMA (ewma.ts)

State fields mirror the private fields `#alpha`, `#period`, `#ts`, `#ewma`,
`#sample`, `#init`.  Times are rational milliseconds; `Date.now()` is the
explicit `now` argument of each call.  The trailing `while (periods >= 1)`
loop of `rate`/`update` is the recursive `decayLoop`.
-/

structure StandardEWMA where
  alpha : ℝ
  period : ℚ
  ts : ℚ
  ewma : ℝ
  sample : ℝ
  init : Bool

/-- The `StandardEWMA` constructor: `#ts = Date.now()`, rate and accumulator
zero, uninitialized.  The source's default period argument is 5000 ms. -/
def StandardEWMA.new (alpha : ℝ) (period : ℚ) (now : ℚ) : StandardEWMA :=
  { alpha := alpha, period := period, ts := now, ewma := 0, sample := 0
    init := false }

/-- The `while (periods >= 1)` decay loop shared by `rate` and `update`:
each iteration multiplies the committed rate by `1 - alpha` and advances the
tick timestamp by one period.  Returns the final rate and timestamp. -/
def StandardEWMA.decayLoop (alpha : ℝ) (ewma : ℝ) (ts period : ℚ)
    (periods : ℚ) : ℝ × ℚ :=
  if h : 1 ≤ periods then
    StandardEWMA.decayLoop alpha ((1 - alpha) * ewma) (ts + period) period
      (periods - 1)
  else (ewma, ts)
  termination_by ⌈periods⌉.toNat
  decreasing_by
    have h1 : 0 < ⌈periods⌉ := Int.ceil_pos.mpr (by linarith)
    have h2 : ⌈periods - 1⌉ = ⌈periods⌉ - 1 := by
      simp [Int.ceil_sub_int periods 1]
    simp only [h2]
    omega

/-- `StandardEWMA.rate` at time `now`: returns the rate and the state after
the call.  The guard `periods < 1 || !init` returns the committed rate
unchanged; past it, the source's (unreachable) first-commitment block, the
single commitment of the pending accumulator, and the idle decay loop are
applied in order. -/
noncomputable def StandardEWMA.rate (s : StandardEWMA) (now : ℚ) :
    ℝ × StandardEWMA :=
  let periods := (now - s.ts) / s.period
  if periods < 1 ∨ s.init = false then (s.ewma, s)
  else
    let seconds : ℚ := s.period / 1000
    let st1 :=
      if s.init = false then
        ({ s with
           ewma := s.sample / (seconds : ℝ)
           ts := s.ts + s.period
           init := true
           sample := 0 }, periods - 1)
      else (s, periods)
    let st2 :=
      if 1 ≤ st1.2 then
        ({ st1.1 with
           ewma := s.alpha * (st1.1.sample / (seconds : ℝ))
             + (1 - s.alpha) * st1.1.ewma
           sample := 0
           ts := st1.1.ts + s.period }, st1.2 - 1)
      else st1
    let l := StandardEWMA.decayLoop s.alpha st2.1.ewma st2.1.ts s.period st2.2
    (l.1, { st2.1 with ewma := l.1, ts := l.2 })

/-- `StandardEWMA.update` at time `now` with value `i`: before the first full
period it only accumulates (and writes `#ewma = 0`); within a period it only
accumulates; otherwise it runs first commitment, pending-sum commitment and
idle decay exactly as `rate` does, then adds `i` to the accumulator. -/
noncomputable def StandardEWMA.update (s : StandardEWMA) (i : ℝ) (now : ℚ) :
    StandardEWMA :=
  let periods := (now - s.ts) / s.period
  if s.init = false ∧ periods < 1 then
    { s with sample := s.sample + i, ewma := 0 }
  else if periods < 1 then
    { s with sample := s.sample + i }
  else
    let seconds : ℚ := s.period / 1000
    let st1 :=
      if s.init = false then
        ({ s with
           ewma := s.sample / (seconds : ℝ)
           ts := s.ts + s.period
           init := true
           sample := 0 }, periods - 1)
      else (s, periods)
    let st2 :=
      if 1 ≤ st1.2 then
        ({ st1.1 with
           ewma := s.alpha * (st1.1.sample / (seconds : ℝ))
             + (1 - s.alpha) * st1.1.ewma
           sample := 0
           ts := st1.1.ts + s.period }, st1.2 - 1)
      else st1
    let l := StandardEWMA.decayLoop s.alpha st2.1.ewma st2.1.ts s.period st2.2
    { st2.1 with ewma := l.1, ts := l.2, sample := st2.1.sample + i }

/-- `newEWMA1()`: decay constant `1 - Math.exp(-5.0/60.0/1)`. -/
noncomputable def alpha1min : ℝ := 1 - Real.exp (-5 / 60 / 1)

/-- `newEWMA5()`: decay constant `1 - Math.exp(-5.0/60.0/5)`. -/
noncomputable def alpha5min : ℝ := 1 - Real.exp (-5 / 60 / 5)

/-- `newEWMA15()`: decay constant `1 - Math.exp(-5.0/60.0/15)`. -/
noncomputable def alpha15min : ℝ := 1 - Real.exp (-5 / 60 / 15)

/-!
## StandardMeter (meter.ts) and StandardTimer (histogram.ts)

`StandardHistogram` is a pure facade: every method delegates to its sample,
so the timer below holds its `ExpDecaySample` directly and the histogram
read methods appear as delegations to the sample's inherited statistics.
-/

structure StandardMeter where
  count : ℤ
  a1 : StandardEWMA
  a5 : StandardEWMA
  a15 : StandardEWMA
  start : ℚ

/-- The `StandardMeter` constructor: three EWMAs with the 1/5/15-minute decay
constants (each with the default 5000 ms period) and `#start = new Date()`. -/
noncomputable def StandardMeter.new (now : ℚ) : StandardMeter :=
  { count := 0
    a1 := StandardEWMA.new alpha1min 5000 now
    a5 := StandardEWMA.new alpha5min 5000 now
    a15 := StandardEWMA.new alpha15min 5000 now
    start := now }

/-- `StandardMeter.mark(i)`: add `i` to the count and feed `i` to each EWMA. -/
noncomputable def StandardMeter.mark (m : StandardMeter) (i : ℤ) (now : ℚ) :
    StandardMeter :=
  { m with
    count := m.count + i
    a1 := m.a1.update (i : ℝ) now
    a5 := m.a5.update (i : ℝ) now
    a15 := m.a15.update (i : ℝ) now }

/-- `StandardMeter.rateMean`: `count / (1 + elapsedSeconds)`. -/
def StandardMeter.rateMean (m : StandardMeter) (now : ℚ) : ℚ :=
  (m.count : ℚ) / (1 + (now - m.start) / 1000)

structure StandardTimer where
  hist : ExpDecaySample
  meter : StandardMeter

/-- The `StandardTimer` constructor: a `StandardHistogram` over
`new ExpDecaySample(0.015, 1028)` plus a `StandardMeter`. -/
noncomputable def StandardTimer.new (now : ℚ) : StandardTimer :=
  { hist := ExpDecaySample.new 0.015 1028 now, meter := StandardMeter.new now }

/-- `StandardTimer.update(t)`: record `t` in the histogram's sample and mark
one occurrence on the meter. -/
noncomputable def StandardTimer.update (s : StandardTimer) (t : ℤ) (q : ℚ)
    (now : ℚ) : StandardTimer :=
  { hist := s.hist.update t q now, meter := s.meter.mark 1 now }

/-- `StandardTimer.count`: delegates through the histogram facade to the
sample's count. -/
def StandardTimer.count (s : StandardTimer) : ℕ := s.hist.count

/-- `StandardTimer.max`: delegates through the histogram facade to the
sample's max. -/
def StandardTimer.max (s : StandardTimer) : ℤ := s.hist.max

/-- `StandardTimer.min`: delegates through the histogram facade to the
sample's min. -/
def StandardTimer.min (s : StandardTimer) : ℤ := s.hist.min

/-!
## Array references (for the copy semantics of `values()`)

`Sample.values()` is implemented once, in `UniformSample`, as
`Object.assign([], this._values)` and inherited unchanged by
`ExpDecaySample`.  To state that the returned array is a *fresh copy* — so
that mutating it cannot affect the reservoir — arrays are modelled as
references into a store: `Object.assign([], a)` allocates a fresh reference
and copies `a`'s contents into it.
-/

structure ArrayStore where
  next : ℕ
  mem : ℕ → List ℤ

/-- Allocation of a fresh array holding contents `l`. -/
def ArrayStore.alloc (st : ArrayStore) (l : List ℤ) : ℕ × ArrayStore :=
  (st.next,
   { next := st.next + 1
     mem := fun k => if k = st.next then l else st.mem k })

/-- Element assignment `a[j] = x` on the array referenced by `r`. -/
def ArrayStore.write (st : ArrayStore) (r : ℕ) (j : ℕ) (x : ℤ) : ArrayStore :=
  { st with mem := fun k => if k = r then (st.mem r).set j x else st.mem k }

/-- `values()` in the store model: `Object.assign([], this._values)` allocates
a fresh array and copies the retained contents (the array referenced by
`ref`) into it; the returned reference and the new store are the result. -/
def valuesCopy (st : ArrayStore) (ref : ℕ) : ℕ × ArrayStore :=
  st.alloc (st.mem ref)

/-- C5: on the empty retained sequence every statistics helper returns the
defined zero value: min, max, mean, variance and stdDev are 0, and
percentile/percentiles return 0 for every requested p. -/
theorem empty_sample_statistics_zero :
    sampleMin [] = 0 ∧ sampleMax [] = 0 ∧ sampleMean [] = 0 ∧
    sampleVariance [] = 0 ∧ sampleStdDev [] = 0 ∧
    (∀ ps : List ℚ, samplePercentiles [] ps = ps.map (fun _ => some 0)) ∧
    (∀ p : ℚ, samplePercentile [] p = some 0) := by
  refine ⟨rfl, rfl, rfl, rfl, ?_, fun ps => rfl, fun p => rfl⟩
  show Real.sqrt ((sampleVariance [] : ℚ) : ℝ) = 0
  norm_num [sampleVariance]

/-- C1: the percentile computation deviates from the claimed 1-indexed
interpolation formula.  On `V = [1, 2]` with `p = 1/2` the position
`pos = 3/2` is fractional and the source reads `vals[0.5]`/`vals[1.5]`
(no `Math.floor`), producing NaN instead of the interpolation `3/2`; and on
`V = [9, 10]` with `p = 0` the default-comparator sort orders the values as
strings, `[10, 9]`, so `V[0]` is `10` instead of the numeric minimum `9`. -/
theorem samplePercentile_not_interpolated :
    samplePercentile [1, 2] (1/2) = none ∧
    samplePercentile [9, 10] 0 = some 10 := by
  have h12 : jsSort [1, 2] = [1, 2] := by decide
  have h910 : jsSort [9, 10] = [10, 9] := by decide
  constructor
  · unfold samplePercentile samplePercentiles
    simp only [h12, List.length_cons, List.length_nil, List.map]
    norm_num [jsGet, jsAdd, jsMul, jsSub]
  · unfold samplePercentile samplePercentiles
    simp only [h910, List.length_cons, List.length_nil, List.map]
    norm_num [jsGet, jsAdd, jsMul, jsSub]

/-- Auxiliary: one `UniformSample.update` increments `_count`. -/
theorem UniformSample.update_count (s : UniformSample) (i : ℤ) (q : ℚ) :
    (s.update i q)._count = s._count + 1 := by
  unfold UniformSample.update
  split
  · rfl
  · dsimp only
    split <;> rfl

/-- Auxiliary: `update` preserves the reservoir size field. -/
theorem UniformSample.update_reservoirSize (s : UniformSample) (i : ℤ) (q : ℚ) :
    (s.update i q).reservoirSize = s.reservoirSize := by
  unfold UniformSample.update
  split
  · rfl
  · dsimp only
    split <;> rfl

/-- Auxiliary: the length of the retained array after one `update`: it grows
by one under capacity and is unchanged otherwise. -/
theorem UniformSample.update_length (s : UniformSample) (i : ℤ) (q : ℚ) :
    (s.update i q)._values.length =
      if s._values.length < s.reservoirSize then s._values.length + 1
      else s._values.length := by
  unfold UniformSample.update
  split
  · simp
  · dsimp only
    split
    · simp [jsArraySet]
      split <;> simp
    · rfl

/-- Auxiliary: `runUpdates` adds the number of updates to `_count`. -/
theorem UniformSample.runUpdates_count (ins : List (ℤ × ℚ)) :
    ∀ s : UniformSample, (s.runUpdates ins)._count = s._count + ins.length := by
  induction ins with
  | nil => intro s; simp [UniformSample.runUpdates]
  | cons hd tl ih =>
    intro s
    show ((s.update hd.1 hd.2).runUpdates tl)._count = _
    rw [ih, UniformSample.update_count]
    simp
    omega

/-- Auxiliary: `runUpdates` preserves the reservoir size field. -/
theorem UniformSample.runUpdates_reservoirSize (ins : List (ℤ × ℚ)) :
    ∀ s : UniformSample, (s.runUpdates ins).reservoirSize = s.reservoirSize := by
  induction ins with
  | nil => intro s; rfl
  | cons hd tl ih =>
    intro s
    show ((s.update hd.1 hd.2).runUpdates tl).reservoirSize = _
    rw [ih, UniformSample.update_reservoirSize]

/-- Auxiliary: while at most the reservoir size, the retained length after a
run of updates is `min R (initial length + number of updates)`. -/
theorem UniformSample.runUpdates_length (ins : List (ℤ × ℚ)) :
    ∀ s : UniformSample, s._values.length ≤ s.reservoirSize →
      (s.runUpdates ins)._values.length =
        min s.reservoirSize (s._values.length + ins.length) := by
  induction ins with
  | nil => intro s h; simp [UniformSample.runUpdates]; omega
  | cons hd tl ih =>
    intro s h
    show ((s.update hd.1 hd.2).runUpdates tl)._values.length = _
    rw [ih]
    · rw [UniformSample.update_length, UniformSample.update_reservoirSize]
      split <;> simp <;> omega
    · rw [UniformSample.update_length, UniformSample.update_reservoirSize]
      split <;> omega

/-- Auxiliary: under capacity, a run of updates appends the updated values in
order and adds the number of updates to the count. -/
theorem UniformSample.runUpdates_under_capacity (ins : List (ℤ × ℚ)) :
    ∀ s : UniformSample,
      s._values.length + ins.length ≤ s.reservoirSize →
      (s.runUpdates ins)._values = s._values ++ ins.map Prod.fst := by
  induction ins with
  | nil => intro s _; simp [UniformSample.runUpdates]
  | cons hd tl ih =>
    intro s h
    have hlt : s._values.length < s.reservoirSize := by
      simp only [List.length_cons] at h
      omega
    show ((s.update hd.1 hd.2).runUpdates tl)._values = _
    have hupd : s.update hd.1 hd.2 =
        { s with _count := s._count + 1, _values := s._values ++ [hd.1] } := by
      unfold UniformSample.update
      rw [if_pos hlt]
    rw [hupd, ih]
    · simp
    · simp only [List.length_append, List.length_cons] at h ⊢
      simp
      omega

/-- C6: for every sequence of N updates into a UniformSample with reservoir
size R ≥ N, `size()` and `count()` both equal N and `values()` — as a list and
hence as a set — equals exactly the updated inputs: no replacement occurs
under capacity. -/
theorem uniformSample_under_capacity_exact (ins : List (ℤ × ℚ)) (R : ℕ)
    (h : ins.length ≤ R) :
    ((UniformSample.new R).runUpdates ins).size = ins.length ∧
    ((UniformSample.new R).runUpdates ins).count = ins.length ∧
    ((UniformSample.new R).runUpdates ins).values = ins.map Prod.fst ∧
    ((UniformSample.new R).runUpdates ins).values.toFinset =
      (ins.map Prod.fst).toFinset := by
  have hvals : ((UniformSample.new R).runUpdates ins)._values = ins.map Prod.fst := by
    have := UniformSample.runUpdates_under_capacity ins (UniformSample.new R)
      (by simpa [UniformSample.new] using h)
    simpa [UniformSample.new] using this
  have hcount := UniformSample.runUpdates_count ins (UniformSample.new R)
  refine ⟨?_, ?_, ?_, ?_⟩
  · simp [UniformSample.size, hvals]
  · simp only [UniformSample.count]
    rw [hcount]
    simp [UniformSample.new]
  · simp [UniformSample.values, hvals]
  · simp [UniformSample.values, hvals]

/-- Witness for C6 at the concrete run `[(5, 0), (7, 0)]` with `R = 2`. -/
theorem uniformSample_under_capacity_exact_witness :
    (([((5 : ℤ), (0 : ℚ)), (7, 0)] : List (ℤ × ℚ)).length ≤ 2) ∧
    (((UniformSample.new 2).runUpdates [((5 : ℤ), (0 : ℚ)), (7, 0)]).size =
        ([((5 : ℤ), (0 : ℚ)), (7, 0)] : List (ℤ × ℚ)).length ∧
      ((UniformSample.new 2).runUpdates [((5 : ℤ), (0 : ℚ)), (7, 0)]).count =
        ([((5 : ℤ), (0 : ℚ)), (7, 0)] : List (ℤ × ℚ)).length ∧
      ((UniformSample.new 2).runUpdates [((5 : ℤ), (0 : ℚ)), (7, 0)]).values =
        ([((5 : ℤ), (0 : ℚ)), (7, 0)] : List (ℤ × ℚ)).map Prod.fst ∧
      ((UniformSample.new 2).runUpdates [((5 : ℤ), (0 : ℚ)), (7, 0)]).values.toFinset =
        (([((5 : ℤ), (0 : ℚ)), (7, 0)] : List (ℤ × ℚ)).map Prod.fst).toFinset) :=
  ⟨by decide, uniformSample_under_capacity_exact [((5 : ℤ), (0 : ℚ)), (7, 0)] 2 (by decide)⟩

/-- C7: with more updates than the reservoir size R, `size()` settles at R and
`count()` counts every update; the retained length never exceeds R at any
intermediate point; and at capacity one update either overwrites a single
existing slot or is discarded. -/
theorem uniformSample_over_capacity_bound (ins : List (ℤ × ℚ)) (R : ℕ)
    (h : R < ins.length) :
    ((UniformSample.new R).runUpdates ins).size = R ∧
    ((UniformSample.new R).runUpdates ins).count = ins.length ∧
    (∀ pre suf : List (ℤ × ℚ), ins = pre ++ suf →
      ((UniformSample.new R).runUpdates pre).size ≤ R) ∧
    (∀ (t : UniformSample) (i : ℤ) (q : ℚ),
      t._values.length = t.reservoirSize →
      ((t.update i q)._values = t._values ∨
        ∃ r : ℕ, r < t._values.length ∧
          (t.update i q)._values = t._values.set r i)) := by
  refine ⟨?_, ?_, ?_, ?_⟩
  · have hl := UniformSample.runUpdates_length ins (UniformSample.new R)
      (by simp [UniformSample.new])
    simp only [UniformSample.size]
    rw [hl]
    simp [UniformSample.new]
    omega
  · simp only [UniformSample.count]
    rw [UniformSample.runUpdates_count]
    simp [UniformSample.new]
  · intro pre suf _
    have hl := UniformSample.runUpdates_length pre (UniformSample.new R)
      (by simp [UniformSample.new])
    simp only [UniformSample.size]
    rw [hl]
    simp [UniformSample.new]
  · intro t i q hfull
    unfold UniformSample.update
    rw [if_neg (by omega)]
    dsimp only
    split
    · unfold jsArraySet
      split
      · right
        refine ⟨(⌊q * (((t._count + 1 : ℕ)) : ℚ)⌋).toNat, ?_, ?_⟩
        · omega
        · rfl
      · left; rfl
    · left; rfl

/-- Witness for C7 at the concrete run `[(1, 0), (2, 0)]` with `R = 1`. -/
theorem uniformSample_over_capacity_bound_witness :
    (1 < ([((1 : ℤ), (0 : ℚ)), (2, 0)] : List (ℤ × ℚ)).length) ∧
    (((UniformSample.new 1).runUpdates [((1 : ℤ), (0 : ℚ)), (2, 0)]).size = 1 ∧
      ((UniformSample.new 1).runUpdates [((1 : ℤ), (0 : ℚ)), (2, 0)]).count =
        ([((1 : ℤ), (0 : ℚ)), (2, 0)] : List (ℤ × ℚ)).length ∧
      (∀ pre suf : List (ℤ × ℚ),
        ([((1 : ℤ), (0 : ℚ)), (2, 0)] : List (ℤ × ℚ)) = pre ++ suf →
        ((UniformSample.new 1).runUpdates pre).size ≤ 1) ∧
      (∀ (t : UniformSample) (i : ℤ) (q : ℚ),
        t._values.length = t.reservoirSize →
        ((t.update i q)._values = t._values ∨
          ∃ r : ℕ, r < t._values.length ∧
            (t.update i q)._values = t._values.set r i))) :=
  ⟨by decide, uniformSample_over_capacity_bound [((1 : ℤ), (0 : ℚ)), (2, 0)] 1 (by decide)⟩

/-- C2: the capacity bound on the keyed entry set is violated.  The capacity
check `size() === reservoirSize` reads the inherited `_values` array, which
`ExpDecaySample.update` never appends to, so it never fires (for R > 0) and
the keyed entry list grows without bound: with `R = 1`, two updates leave two
retained entries (while the inherited `size()` stays 0). -/
theorem expDecay_capacity_violated :
    (((ExpDecaySample.new 0.015 1 0).update 5 0 0).update 6 0 0).keyed.length = 2 ∧
    (((ExpDecaySample.new 0.015 1 0).update 5 0 0).update 6 0 0).size = 0 ∧
    1 < 2 := by
  refine ⟨?_, ?_, by norm_num⟩ <;>
    norm_num [ExpDecaySample.new, ExpDecaySample.update, ExpDecaySample.size,
      ExpDecaySample.rescaleThreshold, jsPop]

/-- C8: the random divisor is an integer `Math.floor(q * count)` in
`[0, count)`, not a number in `(0, count]`.  On the very first update
(`count = 1`) it is 0 for every possible draw `q ∈ [0, 1)`, the priority key
is divided by zero, and the stored key is the non-finite `Infinity`
(modelled `none`). -/
theorem expDecay_divisor_zero (alpha : ℝ) (R : ℕ) (ct : ℚ) (i : ℤ) (q t : ℚ)
    (hq0 : 0 ≤ q) (hq1 : q < 1) :
    ExpDecaySample.divisor ((ExpDecaySample.new alpha R ct)._count + 1) q = 0 ∧
    ((ExpDecaySample.new alpha R ct).update i q t).keyed.map Prod.fst = [none] := by
  have hdiv : ExpDecaySample.divisor 1 q = 0 := by
    unfold ExpDecaySample.divisor
    simp only [Nat.cast_one, mul_one]
    rw [Int.floor_eq_zero_iff]
    exact ⟨hq0, hq1⟩
  constructor
  · simpa [ExpDecaySample.new] using hdiv
  · unfold ExpDecaySample.update
    simp only [ExpDecaySample.new]
    split <;>
      simp [hdiv, ExpDecaySample.priorityKey, ExpDecaySample.scaleKey]

/-- Witness for C8 at the concrete draw `q = 0` (any `q ∈ [0,1)` works). -/
theorem expDecay_divisor_zero_witness :
    ((0 : ℚ) ≤ 0 ∧ (0 : ℚ) < 1) ∧
    (ExpDecaySample.divisor ((ExpDecaySample.new 0 1028 0)._count + 1) 0 = 0 ∧
      ((ExpDecaySample.new 0 1028 0).update 100 0 0).keyed.map Prod.fst = [none]) :=
  ⟨⟨by decide, by decide⟩, expDecay_divisor_zero 0 1028 0 100 0 0 (by decide) (by decide)⟩

/-- C4: after a single `update(100)` on a fresh standard Timer, `count()` and
the meter's count are 1 as claimed, but the histogram's `max()` and `min()`
are 0, not 100: the exponentially-decaying sample's statistics are computed
over the inherited (forever empty) `_values` array, not over the values of
the retained keyed entries. -/
theorem standardTimer_stats_ignore_entries (q : ℚ) :
    ((StandardTimer.new 0).update 100 q 0).count = 1 ∧
    ((StandardTimer.new 0).update 100 q 0).max = 0 ∧
    ((StandardTimer.new 0).update 100 q 0).min = 0 ∧
    ((StandardTimer.new 0).update 100 q 0).meter.count = 1 ∧
    (0 : ℤ) ≠ 100 := by
  refine ⟨?_, ?_, ?_, ?_, by norm_num⟩ <;>
    norm_num [StandardTimer.new, StandardTimer.update, StandardTimer.count,
      StandardTimer.max, StandardTimer.min, ExpDecaySample.new,
      ExpDecaySample.update, ExpDecaySample.count, ExpDecaySample.max,
      ExpDecaySample.min, ExpDecaySample.rescaleThreshold, StandardMeter.new,
      StandardMeter.mark, sampleMax, sampleMin, jsPop]

/-- C3: a `rate()` query alone never performs the first lazy period
commitment: with an `alpha1min` EWMA, after `update(3)` within the first
period and a full 5-second period elapsing, `rate()` returns 0 (the guard
`periods < 1 || !init` returns before the commitment block, which is
unreachable), not the claimed `3/5`; after a second idle period it still
returns 0, not `0.6 * (1 - alpha1min)` (which is nonzero). -/
theorem ewma_rate_skips_first_commitment :
    (((StandardEWMA.new alpha1min 5000 0).update 3 0).rate 5000).1 = 0 ∧
    ((((StandardEWMA.new alpha1min 5000 0).update 3 0).rate 5000).2.rate 10000).1 = 0 ∧
    (3 / 5 : ℝ) ≠ 0 ∧ (3 / 5 : ℝ) * (1 - alpha1min) ≠ 0 := by
  refine ⟨?_, ?_, by norm_num, ?_⟩
  · norm_num [StandardEWMA.new, StandardEWMA.update, StandardEWMA.rate]
  · norm_num [StandardEWMA.new, StandardEWMA.update, StandardEWMA.rate]
  · have h1 : (1 : ℝ) - alpha1min = Real.exp (-5 / 60 / 1) := by
      simp [alpha1min]
    rw [h1]
    exact mul_ne_zero (by norm_num) (Real.exp_ne_zero _)

/-- Auxiliary: if `periods` is the exact number of periods between the tick
timestamp and `now`, the decay loop exits with its final timestamp less than
one period behind `now`. -/
theorem StandardEWMA.decayLoop_remainder (alpha : ℝ) (period : ℚ)
    (hp : 0 < period) (now : ℚ) :
    ∀ (n : ℕ) (periods ts : ℚ) (ewma : ℝ), ⌈periods⌉.toNat = n →
      periods = (now - ts) / period →
      (now - (StandardEWMA.decayLoop alpha ewma ts period periods).2) / period < 1 := by
  intro n
  induction n using Nat.strong_induction_on with
  | _ n ih =>
    intro periods ts ewma hn hrel
    unfold StandardEWMA.decayLoop
    split
    · rename_i h
      have hceil : 0 < ⌈periods⌉ := Int.ceil_pos.mpr (by linarith)
      have hstep : ⌈periods - 1⌉ = ⌈periods⌉ - 1 := by
        simp [Int.ceil_sub_int periods 1]
      have hlt : ⌈periods - 1⌉.toNat < n := by omega
      refine ih _ hlt (periods - 1) (ts + period) _ rfl ?_
      rw [hrel]
      field_simp
      ring
    · rename_i h
      have : (now - ts) / period < 1 := by
        rw [← hrel]
        linarith
      simpa using this

/-- C9: `rate()` with zero elapsed time is a read-only no-op, and however much
time has elapsed, a second `rate()` call with no further time elapsed returns
the identical value and leaves the state exactly as the first call left it. -/
theorem ewma_rate_idempotent (s : StandardEWMA) (now : ℚ)
    (hp : 0 < s.period) :
    StandardEWMA.rate s s.ts = (s.ewma, s) ∧
    StandardEWMA.rate (StandardEWMA.rate s now).2 now = StandardEWMA.rate s now := by
  constructor
  · simp [StandardEWMA.rate]
  · by_cases hg : ((now - s.ts) / s.period < 1 ∨ s.init = false)
    · have h1 : StandardEWMA.rate s now = (s.ewma, s) := by
        simp only [StandardEWMA.rate]
        rw [if_pos hg]
      rw [h1]
      exact h1
    · push_neg at hg
      obtain ⟨hg1, hg2⟩ := hg
      have hinit : s.init = true := by
        revert hg2
        cases s.init <;> simp
      have h2 : (1 : ℚ) ≤ (now - s.ts) / s.period := hg1
      have hfirst : StandardEWMA.rate s now =
          ((StandardEWMA.decayLoop s.alpha
              (s.alpha * (s.sample / ((s.period / 1000 : ℚ) : ℝ))
                + (1 - s.alpha) * s.ewma)
              (s.ts + s.period) s.period ((now - s.ts) / s.period - 1)).1,
            { s with
              ewma := (StandardEWMA.decayLoop s.alpha
                (s.alpha * (s.sample / ((s.period / 1000 : ℚ) : ℝ))
                  + (1 - s.alpha) * s.ewma)
                (s.ts + s.period) s.period ((now - s.ts) / s.period - 1)).1
              ts := (StandardEWMA.decayLoop s.alpha
                (s.alpha * (s.sample / ((s.period / 1000 : ℚ) : ℝ))
                  + (1 - s.alpha) * s.ewma)
                (s.ts + s.period) s.period ((now - s.ts) / s.period - 1)).2
              sample := 0 }) := by
        simp only [StandardEWMA.rate]
        rw [if_neg (by push_neg; exact ⟨hg1, by simp [hinit]⟩)]
        simp [hinit, h2]
      have hrem : (now -
          (StandardEWMA.decayLoop s.alpha
            (s.alpha * (s.sample / ((s.period / 1000 : ℚ) : ℝ))
              + (1 - s.alpha) * s.ewma)
            (s.ts + s.period) s.period ((now - s.ts) / s.period - 1)).2) /
            s.period < 1 := by
        refine StandardEWMA.decayLoop_remainder s.alpha s.period hp now _ _ _ _ rfl ?_
        field_simp
        ring
      rw [hfirst]
      simp only [StandardEWMA.rate]
      rw [if_pos (by left; exact hrem)]

/-- Witness for C9 at a concrete freshly-constructed EWMA and `now = 0`. -/
theorem ewma_rate_idempotent_witness :
    (0 : ℚ) < (⟨0, 5000, 0, 0, 0, false⟩ : StandardEWMA).period ∧
    (StandardEWMA.rate ⟨0, 5000, 0, 0, 0, false⟩
        (⟨0, 5000, 0, 0, 0, false⟩ : StandardEWMA).ts =
        ((⟨0, 5000, 0, 0, 0, false⟩ : StandardEWMA).ewma,
          ⟨0, 5000, 0, 0, 0, false⟩) ∧
      StandardEWMA.rate
          (StandardEWMA.rate ⟨0, 5000, 0, 0, 0, false⟩ 0).2 0 =
        StandardEWMA.rate ⟨0, 5000, 0, 0, 0, false⟩ 0) :=
  ⟨by decide, ewma_rate_idempotent ⟨0, 5000, 0, 0, 0, false⟩ 0 (by decide)⟩

/-- C10: `values()` returns a fresh copy of the retained values: the copy has
the sample's retained contents, and a subsequent element write on the
returned array leaves the sample's internal array — and hence every
statistics query over it — unchanged. -/
theorem values_copy_frame (st : ArrayStore) (ref j : ℕ) (x : ℤ)
    (h : ref < st.next) :
    (valuesCopy st ref).2.mem (valuesCopy st ref).1 = st.mem ref ∧
    ((valuesCopy st ref).2.write (valuesCopy st ref).1 j x).mem ref =
      st.mem ref ∧
    sampleMax (((valuesCopy st ref).2.write (valuesCopy st ref).1 j x).mem ref) =
      sampleMax (st.mem ref) ∧
    sampleMin (((valuesCopy st ref).2.write (valuesCopy st ref).1 j x).mem ref) =
      sampleMin (st.mem ref) ∧
    sampleMean (((valuesCopy st ref).2.write (valuesCopy st ref).1 j x).mem ref) =
      sampleMean (st.mem ref) ∧
    sampleVariance (((valuesCopy st ref).2.write (valuesCopy st ref).1 j x).mem ref) =
      sampleVariance (st.mem ref) ∧
    samplePercentiles (((valuesCopy st ref).2.write (valuesCopy st ref).1 j x).mem ref)
        [1/2, 3/4, 19/20, 99/100, 999/1000] =
      samplePercentiles (st.mem ref) [1/2, 3/4, 19/20, 99/100, 999/1000] := by
  have hne : ref ≠ st.next := Nat.ne_of_lt h
  have hmem : ((valuesCopy st ref).2.write (valuesCopy st ref).1 j x).mem ref =
      st.mem ref := by
    simp [valuesCopy, ArrayStore.alloc, ArrayStore.write, hne]
  refine ⟨?_, hmem, ?_, ?_, ?_, ?_, ?_⟩ <;>
    simp [valuesCopy, ArrayStore.alloc, ArrayStore.write, hne, hmem]

/-- Witness for C10 at a concrete one-array store. -/
theorem values_copy_frame_witness :
    ((0 : ℕ) <
      (⟨1, fun k => if k = 0 then [3] else []⟩ : ArrayStore).next) ∧
    ((valuesCopy ⟨1, fun k => if k = 0 then [3] else []⟩ 0).2.mem
        (valuesCopy ⟨1, fun k => if k = 0 then [3] else []⟩ 0).1 =
        (⟨1, fun k => if k = 0 then [3] else []⟩ : ArrayStore).mem 0 ∧
      ((valuesCopy ⟨1, fun k => if k = 0 then [3] else []⟩ 0).2.write
          (valuesCopy ⟨1, fun k => if k = 0 then [3] else []⟩ 0).1 0 7).mem 0 =
        (⟨1, fun k => if k = 0 then [3] else []⟩ : ArrayStore).mem 0 ∧
      sampleMax (((valuesCopy ⟨1, fun k => if k = 0 then [3] else []⟩ 0).2.write
          (valuesCopy ⟨1, fun k => if k = 0 then [3] else []⟩ 0).1 0 7).mem 0) =
        sampleMax ((⟨1, fun k => if k = 0 then [3] else []⟩ : ArrayStore).mem 0) ∧
      sampleMin (((valuesCopy ⟨1, fun k => if k = 0 then [3] else []⟩ 0).2.write
          (valuesCopy ⟨1, fun k => if k = 0 then [3] else []⟩ 0).1 0 7).mem 0) =
        sampleMin ((⟨1, fun k => if k = 0 then [3] else []⟩ : ArrayStore).mem 0) ∧
      sampleMean (((valuesCopy ⟨1, fun k => if k = 0 then [3] else []⟩ 0).2.write
          (valuesCopy ⟨1, fun k => if k = 0 then [3] else []⟩ 0).1 0 7).mem 0) =
        sampleMean ((⟨1, fun k => if k = 0 then [3] else []⟩ : ArrayStore).mem 0) ∧
      sampleVariance (((valuesCopy ⟨1, fun k => if k = 0 then [3] else []⟩ 0).2.write
          (valuesCopy ⟨1, fun k => if k = 0 then [3] else []⟩ 0).1 0 7).mem 0) =
        sampleVariance ((⟨1, fun k => if k = 0 then [3] else []⟩ : ArrayStore).mem 0) ∧
      samplePercentiles
          (((valuesCopy ⟨1, fun k => if k = 0 then [3] else []⟩ 0).2.write
            (valuesCopy ⟨1, fun k => if k = 0 then [3] else []⟩ 0).1 0 7).mem 0)
          [1/2, 3/4, 19/20, 99/100, 999/1000] =
        samplePercentiles ((⟨1, fun k => if k = 0 then [3] else []⟩ : ArrayStore).mem 0)
          [1/2, 3/4, 19/20, 99/100, 999/1000]) :=
  ⟨by decide, values_copy_frame ⟨1, fun k => if k = 0 then [3] else []⟩ 0 0 7 (by decide)⟩
